import Mathlib

/-!
Verification development for the trends client: a shallow embedding of the
transport retry layer (`src/helpers/request.ts` and its variant) and the
positional response decoder (`src/helpers/format.ts`,
`src/helpers/googleTrendsAPI.ts`), with theorems settling the stated
properties of the specification.

JavaScript strings are modelled as `List Char`; JavaScript/JSON values as
the inductive `Json` below, with `Json.undefined` standing for `undefined`
(produced by out-of-range indexing and missing-property access, never by
`JSON.parse`).
-/

set_option maxHeartbeats 1000000

/-- A JavaScript value as handled by the decoder. `undefined` models
`undefined`; the remaining constructors are the JSON value forms. -/
inductive Json where
  | undefined : Json
  | null : Json
  | bool (b : Bool) : Json
  | num (n : Int) : Json
  | str (s : List Char) : Json
  | arr (elems : List Json) : Json
  | obj (fields : List (List Char × Json)) : Json
deriving Repr

/-- JavaScript truthiness of a value (`NaN` is not modelled: numbers are
integers here). `0`, `''`, `null`, `undefined`, `false` are falsy; arrays
and objects are always truthy. -/
def truthy : Json → Bool
  | .undefined => false
  | .null => false
  | .bool b => b
  | .num n => n != 0
  | .str s => !s.isEmpty
  | .arr _ => true
  | .obj _ => true

/-- `[a,b].join(',')` -/
def commaJoin : List (List Char) → List Char
  | [] => []
  | [x] => x
  | x :: y :: rest => x ++ ',' :: commaJoin (y :: rest)

mutual
/-- JavaScript `String(v)` coercion (as used by the decoder's
`String(x || d)` defaulting and by `JSON.parse`'s argument coercion). -/
def jsToString : Json → List Char
  | .undefined => "undefined".toList
  | .null => "null".toList
  | .bool b => if b then "true".toList else "false".toList
  | .num n => (toString n).toList
  | .str s => s
  | .arr xs => commaJoin (jsToStringElems xs)
  | .obj _ => "[object Object]".toList

/-- `Array.prototype.toString` renders `null`/`undefined` elements as
empty strings. -/
def jsToStringElems : List Json → List (List Char)
  | [] => []
  | x :: rest =>
    (match x with
      | .null => []
      | .undefined => []
      | y => jsToString y) :: jsToStringElems rest
end

/-- Object property lookup: JSON.parse keeps the last binding of a
duplicated key, so the lookup takes the last matching pair. -/
def objGet (kvs : List (List Char × Json)) (k : List Char) : Option Json :=
  kvs.reverse.lookup k

/-- `item[i]` for an array `item`: out-of-range access yields `undefined`. -/
def rowIdx (item : List Json) (i : Nat) : Json :=
  item.getD i .undefined

/-- `String(v || d)`: stringify `v` when it is truthy, else the default. -/
def jsOrDefaultStr (v : Json) (d : List Char) : List Char :=
  if truthy v then jsToString v else d

structure Article where
  title : List Char
  url : List Char
  source : List Char
  time : List Char
  snippet : List Char
deriving Repr

structure ImageInfo where
  newsUrl : List Char
  source : List Char
  imageUrl : List Char
deriving Repr

/-- `TrendingStory`; `endTime = none` models the `endTime` key being
absent, `image = none` models the `image` key being absent. -/
structure TrendingStory where
  title : List Char
  traffic : List Char
  articles : List Article
  shareUrl : List Char
  startTime : Int
  endTime : Option Int
  image : Option ImageInfo
deriving Repr

/-- `TrendingTopic` (summary projection, no shareUrl/image). -/
structure TrendingTopic where
  title : List Char
  traffic : List Char
  articles : List Article
  startTime : Int
  endTime : Option Int
deriving Repr

structure DailyTrendingTopics where
  allTrendingStories : List TrendingStory
  summary : List TrendingTopic
deriving Repr

/-- One article row mapped by position 0..4, each field `String(a[i] || '')`. -/
def articleOfRow (a : List Json) : Article :=
  { title := jsOrDefaultStr (rowIdx a 0) []
    url := jsOrDefaultStr (rowIdx a 1) []
    source := jsOrDefaultStr (rowIdx a 2) []
    time := jsOrDefaultStr (rowIdx a 3) []
    snippet := jsOrDefaultStr (rowIdx a 4) [] }

/-- `extractArticles` from format.ts: the image/article bundle is `item[1]`;
it must be an array of length > 3 whose position 3 is an array; article
rows that are not arrays of length >= 5 are dropped. -/
def extractArticles (item : List Json) : List Article :=
  match rowIdx item 1 with
  | .arr imageData =>
    if imageData.length ≤ 3 then []
    else
      match rowIdx imageData 3 with
      | .arr articlesArray =>
        articlesArray.filterMap fun a =>
          match a with
          | .arr fields => if 5 ≤ fields.length then some (articleOfRow fields) else none
          | _ => none
      | _ => []
  | _ => []

/-- `extractTimestamp` from format.ts: `item[index]` must be a non-empty
array whose first element is a number, else `undefined`. -/
def extractTimestamp (item : List Json) (index : Nat) : Option Int :=
  match rowIdx item index with
  | .arr [] => none
  | .arr (x :: _) =>
    match x with
    | .num t => some t
    | _ => none
  | _ => none

/-- `extractImage` from format.ts: present only when `item[1]` is an array
of length >= 3; fields from positions 0..2. -/
def extractImage (item : List Json) : Option ImageInfo :=
  match rowIdx item 1 with
  | .arr imageData =>
    if imageData.length < 3 then none
    else
      some { newsUrl := jsOrDefaultStr (rowIdx imageData 0) []
             source := jsOrDefaultStr (rowIdx imageData 1) []
             imageUrl := jsOrDefaultStr (rowIdx imageData 2) [] }
  | _ => none

/-- The `TrendingStory` built from one row inside `updateResponseObject`.
The spreads `...(endTime && { endTime })` and `...(image && { image })`
keep the key only when the value is truthy, so a zero `endTime` is
dropped. -/
def rowStory (item : List Json) : TrendingStory :=
  { title := jsOrDefaultStr (rowIdx item 0) []
    traffic := jsOrDefaultStr (rowIdx item 6) ['0']
    articles := extractArticles item
    shareUrl := jsOrDefaultStr (rowIdx item 12) []
    startTime := (extractTimestamp item 3).getD 0
    endTime :=
      match extractTimestamp item 4 with
      | some t => if t = 0 then none else some t
      | none => none
    image := extractImage item }

/-- The summary `TrendingTopic` pushed for the same row, built from the
story's fields plus the same `startTime`/`endTime` locals. -/
def rowTopic (item : List Json) : TrendingTopic :=
  { title := (rowStory item).title
    traffic := (rowStory item).traffic
    articles := (rowStory item).articles
    startTime := (rowStory item).startTime
    endTime := (rowStory item).endTime }

/-- One step of the `data.forEach` loop of `updateResponseObject`: an
array-typed element pushes one story and one summary entry; other
elements are skipped. -/
def updateStep (acc : List TrendingStory × List TrendingTopic) (item : Json) :
    List TrendingStory × List TrendingTopic :=
  match item with
  | .arr elems => (acc.1 ++ [rowStory elems], acc.2 ++ [rowTopic elems])
  | _ => acc

/-- The `data.forEach` loop of `updateResponseObject`. -/
def updateRows (rows : List Json) : List TrendingStory × List TrendingTopic :=
  rows.foldl updateStep ([], [])

/-- The rows the forEach acts on: the array-typed elements, in order. -/
def asRow : Json → Option (List Json)
  | .arr elems => some elems
  | _ => none

/-- An absent timestamp wrapper as the claims word it: not an array, an
empty array, or a first element that is not numeric. -/
def wrapperAbsentSpec : Json → Bool
  | .arr [] => true
  | .arr (x :: _) =>
    match x with
    | .num _ => false
    | _ => true
  | _ => true

/-- `updateResponseObject` from format.ts: throws `ParseError` when the
row set is not an array, otherwise builds both sequences. -/
def updateResponseObject (data : Json) : Except String DailyTrendingTopics :=
  match data with
  | .arr rows => .ok { allTrendingStories := (updateRows rows).1, summary := (updateRows rows).2 }
  | _ => .error "Invalid data format: expected array"

/-- JSON whitespace. -/
def isWSChar (c : Char) : Bool := c == ' ' || c == '\n' || c == '\t' || c == '\r'

def skipWS (s : List Char) : List Char := s.dropWhile isWSChar

/-- String-literal body after the opening quote: returns content and the
input following the closing quote. -/
def parseStrBody : List Char → Option (List Char × List Char)
  | [] => none
  | '"' :: rest => some ([], rest)
  | '\\' :: c :: rest =>
    (parseStrBody rest).bind fun p =>
      (match c with
        | '"' => some '"'
        | '\\' => some '\\'
        | '/' => some '/'
        | 'n' => some '\n'
        | 't' => some '\t'
        | 'r' => some '\r'
        | _ => none).map fun ch => (ch :: p.1, p.2)
  | c :: rest => (parseStrBody rest).map fun p => (c :: p.1, p.2)

def digitVal (c : Char) : Nat := c.toNat - 48

def parseDigits : List Char → Nat → Nat × List Char
  | [], acc => (acc, [])
  | c :: rest, acc =>
    if c.isDigit then parseDigits rest (acc * 10 + digitVal c) else (acc, c :: rest)

mutual
/-- Fuel-driven JSON value parser (integers only: the payloads in scope
carry integral numbers). -/
def parseVal : Nat → List Char → Option (Json × List Char)
  | 0, _ => none
  | fuel + 1, s =>
    match skipWS s with
    | 'n' :: 'u' :: 'l' :: 'l' :: rest => some (.null, rest)
    | 't' :: 'r' :: 'u' :: 'e' :: rest => some (.bool true, rest)
    | 'f' :: 'a' :: 'l' :: 's' :: 'e' :: rest => some (.bool false, rest)
    | '"' :: rest => (parseStrBody rest).map fun p => (.str p.1, p.2)
    | '[' :: rest =>
      (match skipWS rest with
        | ']' :: rest2 => some (.arr [], rest2)
        | _ => (parseArrTail fuel rest).map fun p => (.arr p.1, p.2))
    | '\x7b' :: rest =>
      (match skipWS rest with
        | '\x7d' :: rest2 => some (.obj [], rest2)
        | _ => (parseObjTail fuel rest).map fun p => (.obj p.1, p.2))
    | '-' :: c :: rest =>
      if c.isDigit then
        some (.num (-((parseDigits rest (digitVal c)).1 : Int)), (parseDigits rest (digitVal c)).2)
      else none
    | c :: rest =>
      if c.isDigit then
        some (.num ((parseDigits rest (digitVal c)).1 : Int), (parseDigits rest (digitVal c)).2)
      else none
    | [] => none

/-- One or more comma-separated array elements, ending at `]`. -/
def parseArrTail : Nat → List Char → Option (List Json × List Char)
  | 0, _ => none
  | fuel + 1, s =>
    match parseVal fuel s with
    | none => none
    | some (v, rest) =>
      match skipWS rest with
      | ',' :: rest2 => (parseArrTail fuel rest2).map fun p => (v :: p.1, p.2)
      | ']' :: rest2 => some ([v], rest2)
      | _ => none

/-- One or more comma-separated object members, ending at the closing
brace. -/
def parseObjTail : Nat → List Char → Option (List (List Char × Json) × List Char)
  | 0, _ => none
  | fuel + 1, s =>
    match skipWS s with
    | '"' :: rest =>
      match parseStrBody rest with
      | none => none
      | some (key, rest2) =>
        match skipWS rest2 with
        | ':' :: rest3 =>
          (match parseVal fuel rest3 with
            | none => none
            | some (v, rest4) =>
              match skipWS rest4 with
              | ',' :: rest5 => (parseObjTail fuel rest5).map fun p => ((key, v) :: p.1, p.2)
              | '\x7d' :: rest5 => some ([(key, v)], rest5)
              | _ => none)
        | _ => none
    | _ => none
end

/-- `JSON.parse`: the whole input (up to trailing whitespace) must be one
value. -/
def parseJsonTxt (s : List Char) : Option Json :=
  match parseVal (s.length + 1) s with
  | some (v, rest) => if (skipWS rest).isEmpty then some v else none
  | none => none

/-- Character-list prefix test. -/
def chStarts : List Char → List Char → Bool
  | [], _ => true
  | _ :: _, [] => false
  | p :: ps, c :: cs => p == c && chStarts ps cs

/-- The four-character anti-hijacking token that format.ts strips:
right paren, right bracket, right brace, apostrophe. -/
def hijackToken : List Char := [')', ']', '\x7d', '\x27']

/-- `text.replace(/^\)\]\}'/, '')`: strip one leading occurrence of the
anti-hijacking token. -/
def stripHijack (s : List Char) : List Char :=
  if chStarts hijackToken s then s.drop 4 else s

/-- `.trim()` on the whitespace set in scope. -/
def trimChars (s : List Char) : List Char :=
  ((s.dropWhile isWSChar).reverse.dropWhile isWSChar).reverse

/-- The `cleanedText` of `extractJsonFromResponse`. -/
def cleanedOf (s : List Char) : List Char := trimChars (stripHijack s)

/-- JavaScript `x[i]` with a numeric index: throws a TypeError on
`null`/`undefined`, indexes arrays and string characters, looks numeric
keys up on objects, and yields `undefined` on other primitives. -/
def jsIndexE : Json → Nat → Except Unit Json
  | .undefined, _ => .error ()
  | .null, _ => .error ()
  | .arr xs, i => .ok (xs.getD i .undefined)
  | .str s, i => .ok (match s.get? i with | some c => .str [c] | none => .undefined)
  | .num _, _ => .ok .undefined
  | .bool _, _ => .ok .undefined
  | .obj kvs, i => .ok ((objGet kvs (toString i).toList).getD .undefined)

/-- `extractJsonFromResponse` from format.ts. A thrown `ParseError` keeps
its stage message; any other throw (the TypeError from `parsedResponse[0]`
being `null`, or a `JSON.parse` failure) is re-thrown by the catch block
as `ParseError('Failed to parse response')`. -/
def extractJsonFromResponseE (text : List Char) : Except String DailyTrendingTopics :=
  let cleanedText := cleanedOf text
  match parseJsonTxt cleanedText with
  | none => .error "Failed to parse response"
  | some parsedResponse =>
    match parsedResponse with
    | .arr [] => .error "Invalid response format: empty array"
    | .arr (first :: _) =>
      match jsIndexE first 2 with
      | .error _ => .error "Failed to parse response"
      | .ok nestedJsonString =>
        if truthy nestedJsonString then
          match parseJsonTxt (jsToString nestedJsonString) with
          | none => .error "Failed to parse response"
          | some data =>
            match data with
            | .arr xs =>
              if xs.length < 2 then .error "Invalid response format: missing data array"
              else updateResponseObject (rowIdx xs 1)
            | _ => .error "Invalid response format: missing data array"
        else .error "Invalid response format: missing nested JSON"
    | _ => .error "Invalid response format: empty array"

/-- Modelled from the spec: the error-class taxonomy of the design's §7
(src/errors/GoogleTrendsError.ts is not in the snapshot). Every kind
subclasses `Error`, so a thrown `ParseError` satisfies the
`error instanceof Error` test in the catch-all of `dailyTrends`. -/
inductive ErrKind where
  | network
  | parse
  | invalidRequest
  | unknown
  | rateLimit
deriving DecidableEq, Repr

/-- The decode half of `GoogleTrendsApi.dailyTrends` (googleTrendsAPI.ts,
result-wrapping variant): any error thrown by `extractJsonFromResponse`
is an `Error`, so the catch block wraps its message in a `NetworkError`.
The `if (!trendingTopics)` branch is dead (the extractor never returns
null) and has no counterpart here. -/
def dailyTrendsDecode (text : List Char) : Except (ErrKind × String) DailyTrendingTopics :=
  match extractJsonFromResponseE text with
  | .ok d => .ok d
  | .error msg => .error (.network, msg)

/-- JavaScript property access `v.k`: throws on `null`/`undefined`,
yields `undefined` for a missing key or a primitive/array receiver (the
keys used here are non-numeric). -/
def jsGetProp : Json → List Char → Except Unit Json
  | .undefined, _ => .error ()
  | .null, _ => .error ()
  | .obj kvs, k => .ok ((objGet kvs k).getD .undefined)
  | _, _ => .ok .undefined

/-- `topics.map((topic) => topic.title)`: `.map` exists only on arrays;
each element access `topic.title` follows property-access semantics. -/
def jsMapGetTitle : Json → Except Unit (List Json)
  | .arr xs => xs.mapM fun t => jsGetProp t "title".toList
  | _ => .error ()

/-- The decode path of `GoogleTrendsApi.autocomplete` (both variants):
`JSON.parse(text.slice(5))` then `data.default.topics.map(t => t.title)`.
Any throw is caught by the surrounding catch. -/
def autocompleteDecode (text : List Char) : Except Unit (List Json) :=
  match parseJsonTxt (text.drop 5) with
  | none => .error ()
  | some data => do
    let d ← jsGetProp data "default".toList
    let t ← jsGetProp d "topics".toList
    jsMapGetTitle t

/-- A topic's title as the specification words it: the element must be an
object carrying a string `title`. -/
def titleOfTopicSpec : Json → Option (List Char)
  | .obj kvs =>
    match objGet kvs "title".toList with
    | some (.str s) => some s
    | _ => none
  | _ => none

/-- Reading `default.topics[].title` as the specification words it: the
parsed value must be an object, `default` an object, `topics` an array,
and every element an object with a string `title`. -/
def readTitlesSpec : Json → Option (List (List Char))
  | .obj kvs =>
    match objGet kvs "default".toList with
    | some (.obj kvs2) =>
      match objGet kvs2 "topics".toList with
      | some (.arr topics) => topics.mapM titleOfTopicSpec
      | _ => none
    | _ => none
  | _ => none

/-- The autocomplete decode as the claim words it, with the strip width a
parameter: strip the first `n` characters, parse the remainder as a JSON
object, read the titles from `default.topics[].title`. -/
def autocompleteSpecStrip (n : Nat) (text : List Char) : Option (List (List Char)) :=
  (parseJsonTxt (text.drop n)).bind readTitlesSpec

/-- An HTTP response as observed inside `runRequest`: status code,
accumulated body text, and the first `set-cookie` header value when one
is present. -/
structure HRes where
  statusCode : Nat
  body : List Char
  setCookie : Option (List Char)

/-- `String.prototype.includes`. -/
def containsSub (pat : List Char) : List Char → Bool
  | [] => pat.isEmpty
  | c :: rest => chStarts pat (c :: rest) || containsSub pat rest

def MAX_RETRIES : Nat := 3

def BASE_DELAY_MS : Nat := 750

/-- The `isRateLimited` classification of request.ts (both variants have
this exact expression): status 429 or one of the two body substrings. -/
def isRateLimited (r : HRes) : Bool :=
  r.statusCode == 429
    || containsSub "Error 429".toList r.body
    || containsSub "Too Many Requests".toList r.body

/-- The `isUnauthorized` classification, present only in the part_001
variant. -/
def isUnauthorized (r : HRes) : Bool := r.statusCode == 401

/-- The classification exactly as the claim words it: 429, or 401, or one
of the two body substrings. -/
def specRateLimitedB (r : HRes) : Bool :=
  r.statusCode == 429
    || r.statusCode == 401
    || containsSub "Error 429".toList r.body
    || containsSub "Too Many Requests".toList r.body

/-- `set-cookie` value reduced to its `name=value` segment:
`cookie.split(';')[0]`. -/
def cookieFirstPair (c : List Char) : List Char := c.takeWhile (fun ch => ch != ';')

/-- `BASE_DELAY_MS * Math.pow(2, attempt) + Math.floor(Math.random() * 250)`
with the drawn jitter made explicit. -/
def backoffDelay (attempt jitter : Nat) : Nat := BASE_DELAY_MS * 2 ^ attempt + jitter

/-- Outcome of a `runRequest` recursion: resolved body, number of HTTP
attempts performed, backoff delays slept (in order), final cookie state. -/
structure LoopResult where
  body : List Char
  attemptsMade : Nat
  delays : List Nat
  cookie : Option (List Char)
deriving Repr

/-- `runRequest` of src/helpers/request.ts: the response of attempt `n` is
`resp n` and the jitter drawn before the retry of attempt `n` is
`jitter n`. On a rate-limited response the cookie is refreshed from
`set-cookie` (when present) and, while `attempt < MAX_RETRIES`, the
request is retried after a backoff delay; otherwise the body resolves
as-is. -/
def runRequest (resp : Nat → HRes) (jitter : Nat → Nat) (attempt : Nat)
    (cookie : Option (List Char)) : LoopResult :=
  let r := resp attempt
  let cookie1 :=
    if isRateLimited r then
      match r.setCookie with
      | some c => some (cookieFirstPair c)
      | none => cookie
    else cookie
  if h : isRateLimited r = true ∧ attempt < MAX_RETRIES then
    let rec1 := runRequest resp jitter (attempt + 1) cookie1
    { body := rec1.body
      attemptsMade := rec1.attemptsMade + 1
      delays := backoffDelay attempt (jitter attempt) :: rec1.delays
      cookie := rec1.cookie }
  else
    { body := r.body, attemptsMade := 1, delays := [], cookie := cookie1 }
termination_by MAX_RETRIES - attempt
decreasing_by
  have := h.2
  omega

/-- `runRequest` of the part_001 variant: the cookie is refreshed from
every response; a 302 clears it and retries immediately; a rate-limited
or 401 response retries after a backoff delay; anything else (or
exhausted attempts) resolves the body. -/
def runRequestV2 (resp : Nat → HRes) (jitter : Nat → Nat) (attempt : Nat)
    (cookie : Option (List Char)) : LoopResult :=
  let r := resp attempt
  let cookie1 :=
    match r.setCookie with
    | some c => some (cookieFirstPair c)
    | none => cookie
  if h302 : r.statusCode = 302 ∧ attempt < MAX_RETRIES then
    let rec1 := runRequestV2 resp jitter (attempt + 1) none
    { body := rec1.body
      attemptsMade := rec1.attemptsMade + 1
      delays := rec1.delays
      cookie := rec1.cookie }
  else
    let cookie2 := if r.statusCode = 302 then none else cookie1
    if hrl : (isRateLimited r = true ∨ r.statusCode = 401) ∧ attempt < MAX_RETRIES then
      let rec1 := runRequestV2 resp jitter (attempt + 1) cookie2
      { body := rec1.body
        attemptsMade := rec1.attemptsMade + 1
        delays := backoffDelay attempt (jitter attempt) :: rec1.delays
        cookie := rec1.cookie }
    else
      { body := r.body, attemptsMade := 1, delays := [], cookie := cookie2 }
termination_by MAX_RETRIES - attempt
decreasing_by
  · have := h302.2
    omega
  · have := hrl.2
    omega

theorem foldl_updateStep (rows : List Json) (a : List TrendingStory) (b : List TrendingTopic) :
    rows.foldl updateStep (a, b) =
      (a ++ (rows.filterMap asRow).map rowStory, b ++ (rows.filterMap asRow).map rowTopic) := by
  induction rows generalizing a b with
  | nil => simp
  | cons x rest ih => cases x <;> simp [updateStep, asRow, ih]

theorem updateRows_eq (rows : List Json) :
    updateRows rows = ((rows.filterMap asRow).map rowStory, (rows.filterMap asRow).map rowTopic) := by
  simpa using foldl_updateStep rows [] []

/-- C4: for every input row set, `allTrendingStories` and `summary` have
equal length and row-wise equal titles, and both are the in-order image
of the array-typed source rows (order preserved). -/
theorem updateRows_aligned (rows : List Json) :
    (updateRows rows).1.length = (updateRows rows).2.length ∧
    (updateRows rows).1.map TrendingStory.title = (updateRows rows).2.map TrendingTopic.title ∧
    (updateRows rows).1 = (rows.filterMap asRow).map rowStory ∧
    (updateRows rows).2 = (rows.filterMap asRow).map rowTopic := by
  rw [updateRows_eq]
  refine ⟨by simp, ?_, rfl, rfl⟩
  simp [List.map_map, Function.comp_def, rowTopic]

/-- C9: decoding a row set never fails on malformed rows: whatever the
shape of the individual elements, `updateResponseObject` succeeds on any
array row set, and every array-typed row (however malformed inside)
contributes exactly one defaulted story. -/
theorem updateResponseObject_no_row_failure (rows : List Json) :
    (∃ d, updateResponseObject (Json.arr rows) = Except.ok d) ∧
    (updateRows rows).1.length = (rows.filterMap asRow).length := by
  exact ⟨⟨_, rfl⟩, by rw [updateRows_eq]; simp⟩

theorem extractTimestamp_none_of_absent (item : List Json) (i : Nat)
    (h : wrapperAbsentSpec (rowIdx item i) = true) : extractTimestamp item i = none := by
  unfold extractTimestamp
  unfold wrapperAbsentSpec at h
  cases hj : rowIdx item i <;> (rw [hj] at h; try rfl)
  case arr xs =>
    cases xs with
    | nil => rfl
    | cons y ys => cases y <;> simp_all

/-- C5: a row whose index-4 timestamp wrapper is absent (not an array,
empty, or first element non-numeric) yields a story with no `endTime`
key, and an absent index-3 wrapper yields `startTime = 0`. -/
theorem rowStory_absent_timestamp_defaults (item : List Json) :
    (wrapperAbsentSpec (rowIdx item 4) = true → (rowStory item).endTime = none) ∧
    (wrapperAbsentSpec (rowIdx item 3) = true → (rowStory item).startTime = 0) := by
  constructor
  · intro h
    simp [rowStory, extractTimestamp_none_of_absent item 4 h]
  · intro h
    simp [rowStory, extractTimestamp_none_of_absent item 3 h]

/-- Witness for `rowStory_absent_timestamp_defaults` at a one-element row
(indices 3 and 4 are out of range, hence absent). -/
theorem rowStory_absent_timestamp_defaults_witness :
    (rowStory [Json.str ['x']]).endTime = none ∧ (rowStory [Json.str ['x']]).startTime = 0 :=
  ⟨(rowStory_absent_timestamp_defaults [Json.str ['x']]).1 rfl,
   (rowStory_absent_timestamp_defaults [Json.str ['x']]).2 rfl⟩

theorem rowIdx_set_ne (item : List Json) (i j : Nat) (x : Json) (h : i ≠ j) :
    rowIdx (item.set i x) j = rowIdx item j := by
  simp [rowIdx, List.getD_eq_getElem?_getD, List.getElem?_set_ne h]

theorem rowIdx_set_self (item : List Json) (i : Nat) (x : Json) (h : i < item.length) :
    rowIdx (item.set i x) i = x := by
  simp [rowIdx, List.getD_eq_getElem?_getD, List.getElem?_set_self h]

/-- C10: a row whose index-4 wrapper is present with first element the
number 0 yields a story and summary entry with no `endTime` key (the
truthiness guard drops the zero), indistinguishable from the same row
with the wrapper replaced by null. -/
theorem rowStory_zero_endTime_dropped (item : List Json) (rest : List Json)
    (h : rowIdx item 4 = Json.arr (Json.num 0 :: rest)) :
    (rowStory item).endTime = none ∧ (rowTopic item).endTime = none ∧
    rowStory item = rowStory (item.set 4 Json.null) := by
  have hts : extractTimestamp item 4 = some 0 := by unfold extractTimestamp; rw [h]
  have hlen : 4 < item.length := by
    by_contra hc
    have hnone : item[4]? = none := by
      rw [List.getElem?_eq_none]
      omega
    have : rowIdx item 4 = Json.undefined := by
      simp [rowIdx, List.getD_eq_getElem?_getD, hnone]
    rw [this] at h
    exact Json.noConfusion h
  have e0 := rowIdx_set_ne item 4 0 Json.null (by omega)
  have e1 := rowIdx_set_ne item 4 1 Json.null (by omega)
  have e3 := rowIdx_set_ne item 4 3 Json.null (by omega)
  have e6 := rowIdx_set_ne item 4 6 Json.null (by omega)
  have e12 := rowIdx_set_ne item 4 12 Json.null (by omega)
  have e4 : rowIdx (item.set 4 Json.null) 4 = Json.null := rowIdx_set_self item 4 Json.null hlen
  refine ⟨by simp [rowStory, hts], by simp [rowTopic, rowStory, hts], ?_⟩
  simp [rowStory, extractArticles, extractImage, extractTimestamp, e0, e1, e3, e6, e12, e4, hts, h]

/-- Witness for `rowStory_zero_endTime_dropped` at a concrete row whose
index-4 wrapper is `[0]`. -/
theorem rowStory_zero_endTime_dropped_witness :
    (rowStory [Json.null, Json.null, Json.null, Json.null, Json.arr [Json.num 0]]).endTime = none ∧
    (rowTopic [Json.null, Json.null, Json.null, Json.null, Json.arr [Json.num 0]]).endTime = none ∧
    rowStory [Json.null, Json.null, Json.null, Json.null, Json.arr [Json.num 0]] =
      rowStory ([Json.null, Json.null, Json.null, Json.null, Json.arr [Json.num 0]].set 4 Json.null) :=
  rowStory_zero_endTime_dropped [Json.null, Json.null, Json.null, Json.null, Json.arr [Json.num 0]] [] rfl

/-- C3 counterexample: a 401 response with an empty body is not
classified rate-limited by `isRateLimited` in request.ts, although the
claimed classification (status 429 or 401, or one of the body
substrings) counts it as rate-limited. -/
theorem isRateLimited_401_mismatch :
    isRateLimited ⟨401, [], none⟩ = false ∧ specRateLimitedB ⟨401, [], none⟩ = true :=
  ⟨rfl, rfl⟩

/-- C3 amended: in request.ts the rate-limited classification is exactly
status 429 or one of the two body substrings (401 is not part of it);
the part_001 variant's retry-triggering classification
(`isRateLimited || isUnauthorized`) is exactly the claimed predicate:
429, or 401, or one of the two body substrings. -/
theorem rateLimited_classification_characterized (r : HRes) :
    ((isRateLimited r || isUnauthorized r) = specRateLimitedB r) ∧
    (isRateLimited r = true ↔
      (r.statusCode = 429 ∨ containsSub "Error 429".toList r.body = true ∨
        containsSub "Too Many Requests".toList r.body = true)) := by
  constructor
  · simp only [isRateLimited, isUnauthorized, specRateLimitedB]
    cases h1 : (r.statusCode == 429) <;> cases h2 : (r.statusCode == 401) <;>
      cases h3 : containsSub "Error 429".toList r.body <;>
      cases h4 : containsSub "Too Many Requests".toList r.body <;> rfl
  · simp [isRateLimited, or_assoc]

theorem runRequest_rl_run (resp : Nat → HRes) (jitter : Nat → Nat)
    (hrl : ∀ n, isRateLimited (resp n) = true) :
    ∀ (k attempt : Nat), attempt + k = MAX_RETRIES → ∀ cookie,
      (runRequest resp jitter attempt cookie).attemptsMade = k + 1 ∧
      (runRequest resp jitter attempt cookie).body = (resp MAX_RETRIES).body ∧
      (runRequest resp jitter attempt cookie).delays =
        (List.range k).map fun i => backoffDelay (attempt + i) (jitter (attempt + i)) := by
  intro k
  induction k with
  | zero =>
    intro attempt h cookie
    have ha : attempt = MAX_RETRIES := by omega
    subst ha
    rw [runRequest]
    have hng : ¬ (isRateLimited (resp MAX_RETRIES) = true ∧ MAX_RETRIES < MAX_RETRIES) := by
      rintro ⟨-, hlt⟩
      omega
    simp [dif_neg hng]
  | succ k ih =>
    intro attempt h cookie
    rw [runRequest]
    split
    case isFalse hcond => exact absurd ⟨hrl attempt, by omega⟩ hcond
    case isTrue hcond =>
      obtain ⟨ih1, ih2, ih3⟩ := ih (attempt + 1) (by omega)
        (if isRateLimited (resp attempt) = true then
          match (resp attempt).setCookie with
          | some c => some (cookieFirstPair c)
          | none => cookie
        else cookie)
      refine ⟨by simpa using ih1, by simpa using ih2, ?_⟩
      simp only [ih3, List.range_succ_eq_map, List.map_cons, List.map_map]
      congr 1
      apply List.map_congr_left
      intro i hi
      have harg : attempt + 1 + i = attempt + (i + 1) := by omega
      simp [Function.comp_def, harg]

theorem runRequestV2_rl_run (resp : Nat → HRes) (jitter : Nat → Nat)
    (hrl : ∀ n, isRateLimited (resp n) = true) :
    ∀ (k attempt : Nat), attempt + k = MAX_RETRIES → ∀ cookie,
      (runRequestV2 resp jitter attempt cookie).attemptsMade = k + 1 ∧
      (runRequestV2 resp jitter attempt cookie).body = (resp MAX_RETRIES).body := by
  intro k
  induction k with
  | zero =>
    intro attempt h cookie
    have ha : attempt = MAX_RETRIES := by omega
    subst ha
    rw [runRequestV2]
    have h1 : ¬ ((resp MAX_RETRIES).statusCode = 302 ∧ MAX_RETRIES < MAX_RETRIES) := by
      rintro ⟨-, hlt⟩
      omega
    have h2 : ¬ ((isRateLimited (resp MAX_RETRIES) = true ∨
        (resp MAX_RETRIES).statusCode = 401) ∧ MAX_RETRIES < MAX_RETRIES) := by
      rintro ⟨-, hlt⟩
      omega
    simp [dif_neg h1, dif_neg h2]
  | succ k ih =>
    intro attempt h cookie
    have ihx := ih (attempt + 1) (by omega)
    rw [runRequestV2]
    by_cases h302 : (resp attempt).statusCode = 302 ∧ attempt < MAX_RETRIES
    · simp only [dif_pos h302]
      exact ⟨by simpa using (ihx none).1, by simpa using (ihx none).2⟩
    · simp only [dif_neg h302]
      have hcond : (isRateLimited (resp attempt) = true ∨ (resp attempt).statusCode = 401) ∧
          attempt < MAX_RETRIES := ⟨Or.inl (hrl attempt), by omega⟩
      simp only [dif_pos hcond]
      exact ⟨by simpa using (ihx _).1, by simpa using (ihx _).2⟩

/-- C6: when every response is classified rate-limited, both `runRequest`
variants started at attempt 0 perform exactly 4 total attempts (3 retries
after the initial one) and resolve the body observed at the last attempt
(index 3); the recursion terminates, being a total function. -/
theorem runRequest_retry_bounded (resp : Nat → HRes) (jitter : Nat → Nat)
    (cookie : Option (List Char)) (hrl : ∀ n, isRateLimited (resp n) = true) :
    (runRequest resp jitter 0 cookie).attemptsMade = 4 ∧
    (runRequest resp jitter 0 cookie).body = (resp 3).body ∧
    (runRequestV2 resp jitter 0 cookie).attemptsMade = 4 ∧
    (runRequestV2 resp jitter 0 cookie).body = (resp 3).body := by
  obtain ⟨a1, b1, -⟩ := runRequest_rl_run resp jitter hrl 3 0 rfl cookie
  obtain ⟨a2, b2⟩ := runRequestV2_rl_run resp jitter hrl 3 0 rfl cookie
  exact ⟨a1, b1, a2, b2⟩

/-- Witness for `runRequest_retry_bounded`: a stream of constant 429
responses. -/
theorem runRequest_retry_bounded_witness :
    (runRequest (fun _ => ⟨429, [], none⟩) (fun _ => 0) 0 none).attemptsMade = 4 ∧
    (runRequest (fun _ => ⟨429, [], none⟩) (fun _ => 0) 0 none).body = [] ∧
    (runRequestV2 (fun _ => ⟨429, [], none⟩) (fun _ => 0) 0 none).attemptsMade = 4 ∧
    (runRequestV2 (fun _ => ⟨429, [], none⟩) (fun _ => 0) 0 none).body = [] :=
  runRequest_retry_bounded (fun _ => ⟨429, [], none⟩) (fun _ => 0) none (fun _ => rfl)

/-- C7: the computed backoff delay for attempt index n with a jitter draw
j in [0, 250) lies in [750·2^n, 750·2^n + 250); and in an
always-rate-limited run the delays slept before the retries of attempts
0, 1, 2 are exactly these computed delays. -/
theorem backoffDelay_bounds (n j : Nat) (resp : Nat → HRes) (jitter : Nat → Nat)
    (hj : j < 250) (hrl : ∀ m, isRateLimited (resp m) = true) :
    (750 * 2 ^ n ≤ backoffDelay n j ∧ backoffDelay n j < 750 * 2 ^ n + 250) ∧
    (runRequest resp jitter 0 none).delays =
      [backoffDelay 0 (jitter 0), backoffDelay 1 (jitter 1), backoffDelay 2 (jitter 2)] := by
  constructor
  · unfold backoffDelay BASE_DELAY_MS
    omega
  · obtain ⟨-, -, d⟩ := runRequest_rl_run resp jitter hrl 3 0 rfl none
    rw [d]
    rfl

/-- Witness for `backoffDelay_bounds` at attempt 2 with jitter 100 and a
constant 429 stream. -/
theorem backoffDelay_bounds_witness :
    (750 * 2 ^ 2 ≤ backoffDelay 2 100 ∧ backoffDelay 2 100 < 750 * 2 ^ 2 + 250) ∧
    (runRequest (fun _ => ⟨429, [], none⟩) (fun m => m) 0 none).delays =
      [backoffDelay 0 0, backoffDelay 1 1, backoffDelay 2 2] :=
  backoffDelay_bounds 2 100 (fun _ => ⟨429, [], none⟩) (fun m => m) (by decide) (fun _ => rfl)

theorem chStarts_append (p s : List Char) : chStarts p (p ++ s) = true := by
  induction p with
  | nil => rfl
  | cons c cs ih => simp [chStarts, ih]

/-- C8: decoding is insensitive to the anti-hijacking prefix: prepending
the 4-character token to a payload that does not itself start with the
token decodes to the same result as the bare payload. -/
theorem extractJson_hijack_insensitive (r : List Char)
    (h : chStarts hijackToken r = false) :
    extractJsonFromResponseE (hijackToken ++ r) = extractJsonFromResponseE r := by
  have h4 : (hijackToken ++ r).drop 4 = r := by
    have hlen : (4 : Nat) = hijackToken.length := rfl
    rw [hlen, List.drop_left]
  have hs : stripHijack (hijackToken ++ r) = r := by
    simp [stripHijack, chStarts_append, h4]
  have hs2 : stripHijack r = r := by
    simp [stripHijack, h]
  unfold extractJsonFromResponseE cleanedOf
  rw [hs, hs2]

/-- Witness for `extractJson_hijack_insensitive` on the payload `[]`. -/
theorem extractJson_hijack_insensitive_witness :
    extractJsonFromResponseE (hijackToken ++ "[]".toList) = extractJsonFromResponseE "[]".toList :=
  extractJson_hijack_insensitive "[]".toList rfl

/-- C2 counterexample: the structural failure of decoding the body `null`
(stage 1: not a non-empty array) surfaces from `dailyTrends` as a
`NetworkError` wrapping the stage message — not as a `ParseError`. -/
theorem dailyTrends_structural_failure_is_network :
    dailyTrendsDecode "null".toList =
      Except.error (ErrKind.network, "Invalid response format: empty array") ∧
    ErrKind.network ≠ ErrKind.parse :=
  ⟨rfl, by decide⟩

/-- C2 amended: every decode-stage structural failure of
`extractJsonFromResponse` surfaces from the result-wrapping `dailyTrends`
as an error result — never silently swallowed — but as a `NetworkError`
carrying the thrown `ParseError`'s stage message, because the catch-all
wraps every thrown `Error`. -/
theorem dailyTrends_decode_error_propagation (text : List Char) (msg : String)
    (h : extractJsonFromResponseE text = .error msg) :
    dailyTrendsDecode text = .error (ErrKind.network, msg) := by
  unfold dailyTrendsDecode
  rw [h]

/-- Witness for `dailyTrends_decode_error_propagation` on the body `[]`
(stage 1: empty array). -/
theorem dailyTrends_decode_error_propagation_witness :
    dailyTrendsDecode "[]".toList =
      Except.error (ErrKind.network, "Invalid response format: empty array") :=
  dailyTrends_decode_error_propagation "[]".toList _ rfl

theorem mapM_title_of_spec (xs : List Json) (titles : List (List Char))
    (h : xs.mapM titleOfTopicSpec = some titles) :
    (xs.mapM fun t => jsGetProp t "title".toList) = Except.ok (titles.map Json.str) := by
  induction xs generalizing titles with
  | nil =>
    rw [List.mapM_nil] at h ⊢
    simp only [pure] at h
    cases h
    rfl
  | cons x rest ih =>
    rw [List.mapM_cons] at h ⊢
    cases hx : titleOfTopicSpec x with
    | none => rw [hx] at h; simp at h
    | some s =>
      rw [hx] at h
      cases hr : rest.mapM titleOfTopicSpec with
      | none => rw [hr] at h; simp at h
      | some ts =>
        rw [hr] at h
        simp at h
        have hgp : jsGetProp x "title".toList = .ok (.str s) := by
          cases x with
          | obj kvs =>
            simp only [titleOfTopicSpec] at hx
            simp only [jsGetProp]
            cases ho : objGet kvs "title".toList with
            | none => rw [ho] at hx; simp at hx
            | some v => rw [ho] at hx; cases v <;> simp_all
          | undefined => exact Option.noConfusion hx
          | null => exact Option.noConfusion hx
          | bool b => exact Option.noConfusion hx
          | num n => exact Option.noConfusion hx
          | str s2 => exact Option.noConfusion hx
          | arr xs2 => exact Option.noConfusion hx
        rw [hgp, ih ts hr, ← h]
        rfl

/-- C1 amended: the autocomplete decoder strips exactly the first 5
characters of the raw text (not 4), parses the remainder as a JSON
object, and returns the ordered list of titles read from
`default.topics[].title`: whenever the spec-style reading of the
remainder after 5 characters succeeds, the decoder returns exactly those
titles. -/
theorem autocompleteDecode_strips_five (text : List Char) (titles : List (List Char))
    (h : autocompleteSpecStrip 5 text = some titles) :
    autocompleteDecode text = Except.ok (titles.map Json.str) := by
  unfold autocompleteSpecStrip at h
  cases hp : parseJsonTxt (text.drop 5) with
  | none => rw [hp] at h; simp at h
  | some v =>
    rw [hp] at h
    simp only [Option.some_bind] at h
    unfold autocompleteDecode
    rw [hp]
    cases v with
    | obj kvs =>
      simp only [readTitlesSpec] at h
      cases hd : objGet kvs "default".toList with
      | none => rw [hd] at h; simp at h
      | some dv =>
        rw [hd] at h
        cases dv with
        | obj kvs2 =>
          replace h : (match objGet kvs2 "topics".toList with
            | some (Json.arr topics) => topics.mapM titleOfTopicSpec
            | _ => none) = some titles := h
          cases ht : objGet kvs2 "topics".toList with
          | none => rw [ht] at h; simp at h
          | some tv =>
            rw [ht] at h
            cases tv with
            | arr topics =>
              replace h : topics.mapM titleOfTopicSpec = some titles := h
              have e1 : jsGetProp (Json.obj kvs) "default".toList = Except.ok (Json.obj kvs2) := by
                show Except.ok ((objGet kvs "default".toList).getD Json.undefined) =
                  Except.ok (Json.obj kvs2)
                rw [hd]
                rfl
              have e2 : jsGetProp (Json.obj kvs2) "topics".toList =
                  Except.ok (Json.arr topics) := by
                show Except.ok ((objGet kvs2 "topics".toList).getD Json.undefined) =
                  Except.ok (Json.arr topics)
                rw [ht]
                rfl
              have e3 : jsMapGetTitle (Json.arr topics) = Except.ok (titles.map Json.str) :=
                mapM_title_of_spec topics titles h
              show (do
                let d ← jsGetProp (Json.obj kvs) "default".toList
                let t ← jsGetProp d "topics".toList
                jsMapGetTitle t) = Except.ok (titles.map Json.str)
              rw [e1]
              show (do
                let t ← jsGetProp (Json.obj kvs2) "topics".toList
                jsMapGetTitle t) = Except.ok (titles.map Json.str)
              rw [e2]
              show jsMapGetTitle (Json.arr topics) = Except.ok (titles.map Json.str)
              exact e3
            | undefined => exact Option.noConfusion h
            | null => exact Option.noConfusion h
            | bool b => exact Option.noConfusion h
            | num n => exact Option.noConfusion h
            | str s2 => exact Option.noConfusion h
            | obj kvs3 => exact Option.noConfusion h
        | undefined => exact Option.noConfusion h
        | null => exact Option.noConfusion h
        | bool b => exact Option.noConfusion h
        | num n => exact Option.noConfusion h
        | str s2 => exact Option.noConfusion h
        | arr xs2 => exact Option.noConfusion h
    | undefined => exact Option.noConfusion h
    | null => exact Option.noConfusion h
    | bool b => exact Option.noConfusion h
    | num n => exact Option.noConfusion h
    | str s2 => exact Option.noConfusion h
    | arr xs2 => exact Option.noConfusion h

/-- Witness for `autocompleteDecode_strips_five` on a realistically
prefixed response (4-character token plus newline, then the JSON
object). -/
theorem autocompleteDecode_strips_five_witness :
    autocompleteDecode
      (hijackToken ++ '\n' :: "\x7b\"default\":\x7b\"topics\":[]\x7d\x7d".toList) =
      Except.ok [] :=
  autocompleteDecode_strips_five
    (hijackToken ++ '\n' :: "\x7b\"default\":\x7b\"topics\":[]\x7d\x7d".toList) [] rfl

/-- C1 counterexample: on this raw text the decoder (which slices off 5
characters) succeeds and returns the title list, while the claimed
strip-4 reading fails to parse at all; the decoder agrees with the
strip-5 reading instead. -/
theorem autocomplete_strip4_mismatch :
    autocompleteDecode
        ("ABCDE".toList ++ "\x7b\"default\":\x7b\"topics\":[\x7b\"title\":\"a\"\x7d]\x7d\x7d".toList) =
      Except.ok [Json.str ['a']] ∧
    autocompleteSpecStrip 4
        ("ABCDE".toList ++ "\x7b\"default\":\x7b\"topics\":[\x7b\"title\":\"a\"\x7d]\x7d\x7d".toList) =
      none ∧
    autocompleteSpecStrip 5
        ("ABCDE".toList ++ "\x7b\"default\":\x7b\"topics\":[\x7b\"title\":\"a\"\x7d]\x7d\x7d".toList) =
      some [['a']] :=
  ⟨rfl, rfl, rfl⟩
